import Mathlib

/-
Shallow embedding of the core of `src/Bot.py` (Polymarket paper-trading bot):
the paper ledger (`paper_fill`, `mark_to_market`), the order-book top
normalizer (`top_of_book`, `mid_spread`), and the inline signal logic of
`main` (rolling mid window, momentum, recommendation string).

Python floats are modelled as exact rationals (ℚ); Python dicts from
token id to float are modelled as association lists with a first-match
lookup and an in-place update (`dset`), matching dict semantics when the
key list has no duplicates (which Python dicts guarantee).
-/

namespace Polybot

set_option linter.unnecessarySeqFocus false

/-- A Python `Dict[str, float]` as an association list. -/
abbrev Dict := List (String × ℚ)

/-- `d.get(k)`: first entry with key `k`, if any. -/
def dlookup : Dict → String → Option ℚ
  | [], _ => none
  | (k', v) :: rest, k => if k = k' then some v else dlookup rest k

/-- `d.get(k, dflt)`. -/
def dget (d : Dict) (k : String) (dflt : ℚ) : ℚ := (dlookup d k).getD dflt

/-- `d[k] = v`: replace the (unique) entry for `k` in place, or append. -/
def dset : Dict → String → ℚ → Dict
  | [], k, v => [(k, v)]
  | (k', v') :: rest, k, v =>
      if k = k' then (k, v) :: rest else (k', v') :: dset rest k v

/-- The key list of a dict. -/
def keys (d : Dict) : List String := d.map Prod.fst

/-- `PaperState` dataclass of `Bot.py`. -/
structure PaperState where
  cash : ℚ
  pos : Dict
  avg : Dict
  fees_paid : ℚ
deriving DecidableEq

/-- The `PaperState()` defaults: cash 100.0, empty maps, fees 0.0
(`state = PaperState(cash=100.0)` in `main`). -/
def initState : PaperState := { cash := 100, pos := [], avg := [], fees_paid := 0 }

/-- The `(ok, msg)` pair returned by `paper_fill`, with the message
strings abstracted to constructors: `notEnoughCash` stands for
`"Not enough cash"`, `notEnoughPosition` for `"Not enough position"`,
`buyOk size px` for `f"BUY {size} @ {px:.4f}"` and `sellOk size px`
for `f"SELL {size} @ {px:.4f}"`. -/
inductive FillMsg where
  | notEnoughCash
  | notEnoughPosition
  | buyOk (size px : ℚ)
  | sellOk (size px : ℚ)
deriving DecidableEq

/-- `paper_fill(state, token_id, side, px, size, fee_rate)` of `Bot.py`.
Python mutates `state` and returns `(ok, msg)`; here the updated state is
returned alongside the pair. -/
def paper_fill (state : PaperState) (token_id side : String)
    (px size fee_rate : ℚ) : (Bool × FillMsg) × PaperState :=
  let cost := px * size
  let fee := cost * fee_rate
  if side = "BUY" then
    if state.cash < cost + fee then
      ((false, FillMsg.notEnoughCash), state)
    else
      let prev := dget state.pos token_id 0
      let prev_avg := dget state.avg token_id 0
      let new_pos := prev + size
      let new_avg := if new_pos > 0 then (prev * prev_avg + size * px) / new_pos else 0
      ((true, FillMsg.buyOk size px),
        { cash := state.cash - (cost + fee)
          pos := dset state.pos token_id new_pos
          avg := dset state.avg token_id new_avg
          fees_paid := state.fees_paid + fee })
  else
    let prev := dget state.pos token_id 0
    if prev < size then
      ((false, FillMsg.notEnoughPosition), state)
    else
      ((true, FillMsg.sellOk size px),
        { cash := state.cash + (cost - fee)
          pos := dset state.pos token_id (prev - size)
          avg := state.avg
          fees_paid := state.fees_paid + fee })

/-- `mark_to_market(state, prices)` of `Bot.py`: start from `cash`, add
`sh * mid` for every position entry whose token has a price. -/
def mark_to_market (state : PaperState) (prices : Dict) : ℚ :=
  state.pos.foldl
    (fun nav e =>
      match dlookup prices e.1 with
      | some mid => nav + e.2 * mid
      | none => nav)
    state.cash

/-- One price level of an order-book snapshot (price/size already parsed
from their decimal-string form). -/
structure Level where
  price : ℚ
  size : ℚ
deriving DecidableEq

/-- An order-book snapshot: `{"bids": [...], "asks": [...]}`, best first. -/
structure OrderBook where
  bids : List Level
  asks : List Level
deriving DecidableEq

/-- `BookTop` dataclass of `Bot.py`: each field absent when that side of
the book is empty. -/
structure BookTop where
  bid_p : Option ℚ
  bid_s : Option ℚ
  ask_p : Option ℚ
  ask_s : Option ℚ
deriving DecidableEq

/-- `top_of_book(ob)` of `Bot.py`: first bid level and first ask level,
absent fields when the corresponding list is empty. -/
def top_of_book (ob : OrderBook) : BookTop :=
  { bid_p := ob.bids.head?.map Level.price
    bid_s := ob.bids.head?.map Level.size
    ask_p := ob.asks.head?.map Level.price
    ask_s := ob.asks.head?.map Level.size }

/-- `mid_spread(top)` of `Bot.py`. -/
def mid_spread (top : BookTop) : Option ℚ × Option ℚ :=
  match top.bid_p, top.ask_p with
  | some b, some a => (some ((b + a) / 2), some (a - b))
  | _, _ => (none, none)

/-- The rolling-window update in `main`:
`last_mids.append(mid); if len(last_mids) > 30: last_mids.pop(0)`. -/
def updateWindow (w : List ℚ) (mid : ℚ) : List ℚ :=
  let w' := w ++ [mid]
  if w'.length > 30 then w'.tail else w'

/-- The momentum computation in `main`:
`mom = 0.0; if len(last_mids) >= 10: mom = last_mids[-1] - last_mids[-10]`
(Python index `-k` is `len - k`). -/
def momentum (w : List ℚ) : ℚ :=
  if w.length ≥ 10 then w.getD (w.length - 1) 0 - w.getD (w.length - 10) 0 else 0

/-- The recommendation logic in `main`, as a function of the spread, the
momentum and the current position `state.pos.get(token, 0.0)`. -/
def recommendation (spr : Option ℚ) (mom posqty : ℚ) : String :=
  match spr with
  | some s =>
      if s ≥ 0.01 then
        if mom > 0.01 then "BUY small (momentum up)"
        else if mom < -0.01 ∧ posqty > 0 then "SELL small (momentum down)"
        else "HOLD / watch"
      else "HOLD (spread too small)"
  | none => "HOLD (spread too small)"

/-- One fill request, as passed to `paper_fill`. -/
structure FillReq where
  token_id : String
  side : String
  px : ℚ
  size : ℚ
  fee_rate : ℚ
deriving DecidableEq

/-- Run a sequence of fill requests through `paper_fill`, keeping the
resulting states (failed fills leave the state unchanged). -/
def applyFills (s : PaperState) (reqs : List FillReq) : PaperState :=
  reqs.foldl (fun st r => (paper_fill st r.token_id r.side r.px r.size r.fee_rate).2) s

/-- A fill request with a non-negative price and size and a fee rate in
`[0, 1]` (the program itself always uses `fee_rate = 0`). -/
def GoodReq (r : FillReq) : Prop :=
  0 ≤ r.px ∧ 0 ≤ r.size ∧ 0 ≤ r.fee_rate ∧ r.fee_rate ≤ 1

instance (r : FillReq) : Decidable (GoodReq r) := by
  unfold GoodReq; infer_instance

/-- The spec's description of mark-to-market: cash plus the sum of
`position[i] * prices[i]` over the instruments `i` present in the price
mapping (a missing position counts as 0). -/
def navSpec (state : PaperState) (prices : Dict) : ℚ :=
  state.cash + (prices.map (fun e => dget state.pos e.1 0 * e.2)).sum

/-! ### Dict lemmas -/

theorem dget_dset_self (d : Dict) (k : String) (v dflt : ℚ) :
    dget (dset d k v) k dflt = v := by
  induction d with
  | nil => simp [dset, dget, dlookup]
  | cons e rest ih =>
      obtain ⟨k', v'⟩ := e
      by_cases h : k = k' <;> simp [dset, dget, dlookup, h] at ih ⊢ <;>
        simpa [dget, dlookup] using ih

theorem dget_dset_of_ne (d : Dict) (k k' : String) (v dflt : ℚ) (h : k' ≠ k) :
    dget (dset d k v) k' dflt = dget d k' dflt := by
  induction d with
  | nil => simp [dset, dget, dlookup, h]
  | cons e rest ih =>
      obtain ⟨k₀, v₀⟩ := e
      by_cases hk : k = k₀
      · subst hk
        simp [dset, dget, dlookup, h]
      · by_cases hk' : k' = k₀ <;> simp [dset, dget, dlookup, hk, hk'] at ih ⊢ <;>
          simpa [dget, dlookup] using ih

theorem dlookup_eq_none (d : Dict) (k : String) (h : k ∉ keys d) :
    dlookup d k = none := by
  induction d with
  | nil => rfl
  | cons e rest ih =>
      obtain ⟨k', v⟩ := e
      simp [keys] at h
      simp [dlookup, h.1]
      exact ih (by simpa [keys] using h.2)

theorem sum_if_key (ps : Dict) (t : String) (sh : ℚ) (f : String → ℚ)
    (hnd : (keys ps).Nodup) :
    (ps.map (fun e => (if e.1 = t then sh else f e.1) * e.2)).sum
      = (ps.map (fun e => f e.1 * e.2)).sum + (sh - f t) * (dlookup ps t).getD 0 := by
  induction ps with
  | nil => simp [dlookup]
  | cons e rest ih =>
      obtain ⟨k, v⟩ := e
      simp only [keys, List.map_cons, List.nodup_cons] at hnd
      have ihr := ih hnd.2
      by_cases hk : k = t
      · subst hk
        have hnone : dlookup rest k = none :=
          dlookup_eq_none rest k (by simpa [keys] using hnd.1)
        simp only [List.map_cons, List.sum_cons, ihr, dlookup, if_pos rfl, hnone]
        simp
        ring
      · have hk' : ¬ t = k := fun h => hk h.symm
        simp only [List.map_cons, List.sum_cons, ihr, dlookup, if_neg hk, if_neg hk']
        ring

theorem sum_swap : ∀ pos : Dict, (keys pos).Nodup → ∀ ps : Dict, (keys ps).Nodup →
    (pos.map (fun e => e.2 * (dlookup ps e.1).getD 0)).sum
      = (ps.map (fun e => (dlookup pos e.1).getD 0 * e.2)).sum := by
  intro pos
  induction pos with
  | nil =>
      intro _ ps _
      simp [dlookup]
  | cons e rest ih =>
      intro h1 ps h2
      obtain ⟨t, sh⟩ := e
      simp only [keys, List.map_cons, List.nodup_cons] at h1
      have hnone : dlookup rest t = none :=
        dlookup_eq_none rest t (by simpa [keys] using h1.1)
      have hfun : (fun (e : String × ℚ) => (dlookup ((t, sh) :: rest) e.1).getD 0 * e.2)
          = fun (e : String × ℚ) => (if e.1 = t then sh else (dlookup rest e.1).getD 0) * e.2 := by
        funext e
        by_cases he : e.1 = t <;> simp [dlookup, he]
      rw [List.map_cons, List.sum_cons, ih h1.2 ps h2, hfun,
        sum_if_key ps t sh (fun k => (dlookup rest k).getD 0) h2, hnone]
      simp
      ring

theorem mtm_sum : ∀ (pos prices : Dict) (c : ℚ) (a : Dict) (fp : ℚ),
    mark_to_market ⟨c, pos, a, fp⟩ prices
      = c + (pos.map (fun e => e.2 * (dlookup prices e.1).getD 0)).sum := by
  intro pos
  induction pos with
  | nil => intro prices c a fp; simp [mark_to_market]
  | cons e rest ih =>
      intro prices c a fp
      obtain ⟨t, sh⟩ := e
      cases h : dlookup prices t with
      | none =>
          have step : mark_to_market ⟨c, (t, sh) :: rest, a, fp⟩ prices
              = mark_to_market ⟨c, rest, a, fp⟩ prices := by
            simp [mark_to_market, h]
          rw [step, ih]
          simp [h]
      | some mid =>
          have step : mark_to_market ⟨c, (t, sh) :: rest, a, fp⟩ prices
              = mark_to_market ⟨c + sh * mid, rest, a, fp⟩ prices := by
            simp [mark_to_market, h]
          rw [step, ih]
          simp [h]
          ring

/-! ### C1: BUY fill -/

/-- C1: for every ledger state and BUY fill request, with
`cost = px*size` and `fee = cost*feeRate`: the fill fails with
`InsufficientCash` (leaving the state untouched) iff `cash < cost + fee`;
on success, cash drops by exactly `cost + fee`, the instrument's position
grows by exactly `size`, and `fees_paid` grows by `fee`. -/
theorem C1_buy_fill (s : PaperState) (tid : String) (px sz fr : ℚ) :
    (((paper_fill s tid "BUY" px sz fr).1 = (false, FillMsg.notEnoughCash) ∧
        (paper_fill s tid "BUY" px sz fr).2 = s) ↔
      s.cash < px * sz + px * sz * fr) ∧
    (¬ s.cash < px * sz + px * sz * fr →
      (paper_fill s tid "BUY" px sz fr).1.1 = true ∧
      (paper_fill s tid "BUY" px sz fr).2.cash = s.cash - (px * sz + px * sz * fr) ∧
      dget (paper_fill s tid "BUY" px sz fr).2.pos tid 0 = dget s.pos tid 0 + sz ∧
      (paper_fill s tid "BUY" px sz fr).2.fees_paid = s.fees_paid + px * sz * fr) := by
  by_cases hc : s.cash < px * sz + px * sz * fr
  · simp [paper_fill, hc]
  · simp [paper_fill, hc, dget_dset_self]

/-- Witness for C1, the spec's example: from the initial state (cash 100),
buying 10 shares at price 0.5 with fee rate 0 succeeds and leaves
cash 95, position 10 and average cost 0.5. -/
theorem C1_buy_fill_witness :
    (¬ initState.cash < 0.5 * 10 + 0.5 * 10 * 0) ∧
    ((paper_fill initState "X" "BUY" 0.5 10 0).1.1 = true ∧
      (paper_fill initState "X" "BUY" 0.5 10 0).2.cash =
        initState.cash - (0.5 * 10 + 0.5 * 10 * 0) ∧
      dget (paper_fill initState "X" "BUY" 0.5 10 0).2.pos "X" 0 =
        dget initState.pos "X" 0 + 10 ∧
      (paper_fill initState "X" "BUY" 0.5 10 0).2.fees_paid =
        initState.fees_paid + 0.5 * 10 * 0) ∧
    (paper_fill initState "X" "BUY" 0.5 10 0).2.cash = 95 ∧
    dget (paper_fill initState "X" "BUY" 0.5 10 0).2.pos "X" 0 = 10 ∧
    dget (paper_fill initState "X" "BUY" 0.5 10 0).2.avg "X" 0 = 0.5 :=
  ⟨by norm_num [initState],
    (C1_buy_fill initState "X" 0.5 10 0).2 (by norm_num [initState]),
    by norm_num [paper_fill, initState, dget, dlookup, dset],
    by norm_num [paper_fill, initState, dget, dlookup, dset],
    by norm_num [paper_fill, initState, dget, dlookup, dset]⟩

/-! ### C2: SELL fill -/

/-- C2: for every ledger state and SELL fill request, with
`cost = px*size` and `fee = cost*feeRate`: the fill fails with
`InsufficientPosition` (leaving the state untouched) iff the held
quantity is `< size`; on success, the position drops by exactly `size`,
cash grows by exactly `cost - fee`, `fees_paid` grows by `fee`, and the
stored average-cost map is unchanged. -/
theorem C2_sell_fill (s : PaperState) (tid : String) (px sz fr : ℚ) :
    (((paper_fill s tid "SELL" px sz fr).1 = (false, FillMsg.notEnoughPosition) ∧
        (paper_fill s tid "SELL" px sz fr).2 = s) ↔
      dget s.pos tid 0 < sz) ∧
    (¬ dget s.pos tid 0 < sz →
      (paper_fill s tid "SELL" px sz fr).1.1 = true ∧
      dget (paper_fill s tid "SELL" px sz fr).2.pos tid 0 = dget s.pos tid 0 - sz ∧
      (paper_fill s tid "SELL" px sz fr).2.cash = s.cash + (px * sz - px * sz * fr) ∧
      (paper_fill s tid "SELL" px sz fr).2.fees_paid = s.fees_paid + px * sz * fr ∧
      (paper_fill s tid "SELL" px sz fr).2.avg = s.avg) := by
  have hside : ("SELL" : String) ≠ "BUY" := by decide
  by_cases hp : dget s.pos tid 0 < sz
  · simp [paper_fill, hside, hp]
  · simp [paper_fill, hside, hp, dget_dset_self]

/-- Witness for C2, the spec's example: with position 0 (initial state),
selling 1 share at price 0.5 fails with `InsufficientPosition` and the
state is unchanged. -/
theorem C2_sell_fill_witness :
    (((paper_fill initState "X" "SELL" 0.5 1 0).1 =
        (false, FillMsg.notEnoughPosition) ∧
      (paper_fill initState "X" "SELL" 0.5 1 0).2 = initState) ↔
      dget initState.pos "X" 0 < 1) ∧
    dget initState.pos "X" 0 < 1 :=
  ⟨(C2_sell_fill initState "X" 0.5 1 0).1, by norm_num [initState, dget, dlookup]⟩

/-! ### C4: volume-weighted average cost on BUY -/

/-- C4: every successful BUY fill on an instrument with prior quantity
`oldQty` and prior average cost `oldAvg` stores the volume-weighted
average `(oldQty*oldAvg + size*px) / (oldQty + size)` as the new average
cost (stated for `0 < oldQty + size`, which holds in particular whenever
the prior quantity is non-negative and the size is positive). -/
theorem C4_vwap (s : PaperState) (tid : String) (px sz fr : ℚ)
    (hq : 0 < dget s.pos tid 0 + sz)
    (hok : (paper_fill s tid "BUY" px sz fr).1.1 = true) :
    dget (paper_fill s tid "BUY" px sz fr).2.avg tid 0 =
      (dget s.pos tid 0 * dget s.avg tid 0 + sz * px) / (dget s.pos tid 0 + sz) := by
  by_cases hc : s.cash < px * sz + px * sz * fr
  · simp [paper_fill, hc] at hok
  · simp [paper_fill, hc, hq, dget_dset_self]

/-- Witness for C4, the spec's example: buying 10 shares at 0.4 and then
10 shares at 0.6 from the initial state yields an average cost of 0.5 and
a position of 20, matching the volume-weighted formula. -/
theorem C4_vwap_witness :
    0 < dget (paper_fill initState "X" "BUY" 0.4 10 0).2.pos "X" 0 + 10 ∧
    (paper_fill (paper_fill initState "X" "BUY" 0.4 10 0).2 "X" "BUY" 0.6 10 0).1.1 = true ∧
    dget (paper_fill (paper_fill initState "X" "BUY" 0.4 10 0).2 "X" "BUY" 0.6 10 0).2.avg "X" 0 =
      (dget (paper_fill initState "X" "BUY" 0.4 10 0).2.pos "X" 0 *
          dget (paper_fill initState "X" "BUY" 0.4 10 0).2.avg "X" 0 + 10 * 0.6) /
        (dget (paper_fill initState "X" "BUY" 0.4 10 0).2.pos "X" 0 + 10) ∧
    dget (paper_fill (paper_fill initState "X" "BUY" 0.4 10 0).2 "X" "BUY" 0.6 10 0).2.avg "X" 0 = 0.5 ∧
    dget (paper_fill (paper_fill initState "X" "BUY" 0.4 10 0).2 "X" "BUY" 0.6 10 0).2.pos "X" 0 = 20 := by
  have h1 : 0 < dget (paper_fill initState "X" "BUY" 0.4 10 0).2.pos "X" 0 + 10 := by
    norm_num [paper_fill, initState, dget, dlookup, dset]
  have h2 : (paper_fill (paper_fill initState "X" "BUY" 0.4 10 0).2 "X" "BUY" 0.6 10 0).1.1 = true := by
    norm_num [paper_fill, initState, dget, dlookup, dset]
  exact ⟨h1, h2, C4_vwap _ "X" 0.6 10 0 h1 h2,
    by norm_num [paper_fill, initState, dget, dlookup, dset],
    by norm_num [paper_fill, initState, dget, dlookup, dset]⟩

/-! ### C5: mark-to-market -/

/-- C5: for every ledger state and price mapping (both with duplicate-free
keys, as Python dicts guarantee), `mark_to_market` returns cash plus the
sum of `position[i] * prices[i]` over exactly the instruments present in
the price mapping; positions without a price entry contribute nothing. -/
theorem C5_mark_to_market (s : PaperState) (prices : Dict)
    (h1 : (keys s.pos).Nodup) (h2 : (keys prices).Nodup) :
    mark_to_market s prices = navSpec s prices := by
  obtain ⟨c, pos, a, fp⟩ := s
  simp only at h1
  rw [mtm_sum]
  simp only [navSpec, dget]
  rw [sum_swap pos h1 prices h2]

/-- Witness for C5, the spec's example: cash 50 and position `{A: 10}`
give NAV 70 under the price map `{A: 2.0}` and NAV 50 under an empty
price map (the position contributes nothing, with no error). -/
theorem C5_mark_to_market_witness :
    (keys [("A", (10 : ℚ))]).Nodup ∧ (keys [("A", (2 : ℚ))]).Nodup ∧
    (keys ([] : Dict)).Nodup ∧
    mark_to_market { cash := 50, pos := [("A", 10)], avg := [], fees_paid := 0 } [("A", 2)] =
      navSpec { cash := 50, pos := [("A", 10)], avg := [], fees_paid := 0 } [("A", 2)] ∧
    mark_to_market { cash := 50, pos := [("A", 10)], avg := [], fees_paid := 0 } [] =
      navSpec { cash := 50, pos := [("A", 10)], avg := [], fees_paid := 0 } [] ∧
    mark_to_market { cash := 50, pos := [("A", 10)], avg := [], fees_paid := 0 } [("A", 2)] = 70 ∧
    mark_to_market { cash := 50, pos := [("A", 10)], avg := [], fees_paid := 0 } [] = 50 :=
  ⟨by simp [keys], by simp [keys], by simp [keys],
    C5_mark_to_market _ [("A", 2)] (by simp [keys]) (by simp [keys]),
    C5_mark_to_market _ [] (by simp [keys]) (by simp [keys]),
    by norm_num [mark_to_market, dlookup],
    by norm_num [mark_to_market, dlookup]⟩

/-! ### C6: top of book and mid/spread -/

/-- C6: if either best price is absent, `mid_spread` yields both outputs
absent; with both present it yields `mid = (bid+ask)/2` and
`spread = ask-bid` exactly; and on a snapshot with an empty bids
(resp. asks) list, `top_of_book` yields absent price and size on that
side, so `mid_spread` of its output is absent/absent. -/
theorem C6_mid_spread :
    (∀ top : BookTop, top.bid_p = none ∨ top.ask_p = none →
      mid_spread top = (none, none)) ∧
    (∀ (b a : ℚ) (bsz asz : Option ℚ),
      mid_spread ⟨some b, bsz, some a, asz⟩ = (some ((b + a) / 2), some (a - b))) ∧
    (∀ ob : OrderBook, ob.bids = [] →
      (top_of_book ob).bid_p = none ∧ (top_of_book ob).bid_s = none ∧
      mid_spread (top_of_book ob) = (none, none)) ∧
    (∀ ob : OrderBook, ob.asks = [] →
      (top_of_book ob).ask_p = none ∧ (top_of_book ob).ask_s = none ∧
      mid_spread (top_of_book ob) = (none, none)) := by
  refine ⟨?_, ?_, ?_, ?_⟩
  · intro top h
    obtain ⟨bp, bs, ap, asz⟩ := top
    rcases h with h | h <;> subst h <;>
      [cases ap; cases bp] <;> simp [mid_spread]
  · intro b a bsz asz
    rfl
  · intro ob h
    obtain ⟨bids, asks⟩ := ob
    subst h
    cases asks <;> simp [top_of_book, mid_spread]
  · intro ob h
    obtain ⟨bids, asks⟩ := ob
    subst h
    cases bids <;> simp [top_of_book, mid_spread]

/-- Witness for C6: a one-sided top (no bid) gives absent/absent; a
0.4/0.6 two-sided top gives the exact mid and spread; snapshots with an
empty bids (resp. asks) list give an absent side and absent/absent
mid/spread. -/
theorem C6_mid_spread_witness :
    (BookTop.mk none (some 5) (some 1) (some 2)).bid_p = none ∧
    mid_spread ⟨none, some 5, some 1, some 2⟩ = (none, none) ∧
    mid_spread ⟨some 0.4, some 5, some 0.6, some 2⟩ =
      (some (((0.4 : ℚ) + 0.6) / 2), some ((0.6 : ℚ) - 0.4)) ∧
    (OrderBook.mk [] [⟨0.6, 2⟩]).bids = [] ∧
    ((top_of_book ⟨[], [⟨0.6, 2⟩]⟩).bid_p = none ∧
      (top_of_book ⟨[], [⟨0.6, 2⟩]⟩).bid_s = none ∧
      mid_spread (top_of_book ⟨[], [⟨0.6, 2⟩]⟩) = (none, none)) ∧
    (OrderBook.mk [⟨0.4, 5⟩] []).asks = [] ∧
    ((top_of_book ⟨[⟨0.4, 5⟩], []⟩).ask_p = none ∧
      (top_of_book ⟨[⟨0.4, 5⟩], []⟩).ask_s = none ∧
      mid_spread (top_of_book ⟨[⟨0.4, 5⟩], []⟩) = (none, none)) :=
  ⟨rfl, C6_mid_spread.1 ⟨none, some 5, some 1, some 2⟩ (Or.inl rfl),
    C6_mid_spread.2.1 0.4 0.6 (some 5) (some 2),
    rfl, C6_mid_spread.2.2.1 ⟨[], [⟨0.6, 2⟩]⟩ rfl,
    rfl, C6_mid_spread.2.2.2 ⟨[⟨0.4, 5⟩], []⟩ rfl⟩

/-! ### C7: rolling window -/

theorem foldl_updateWindow (xs : List ℚ) : ∀ w : List ℚ, w.length ≤ 30 →
    List.foldl updateWindow w xs = (w ++ xs).drop (w.length + xs.length - 30) := by
  induction xs with
  | nil =>
      intro w hw
      simp [Nat.sub_eq_zero_of_le hw]
  | cons m rest ih =>
      intro w hw
      by_cases hlen : w.length < 30
      · have h1 : updateWindow w m = w ++ [m] := by
          simp only [updateWindow]
          rw [if_neg]
          simp only [List.length_append, List.length_cons, List.length_nil]
          omega
        rw [List.foldl_cons, h1, ih (w ++ [m])
          (by simp only [List.length_append, List.length_cons, List.length_nil]; omega)]
        rw [List.append_assoc,
          show (w ++ [m]).length + rest.length - 30 = w.length + (m :: rest).length - 30 by
            simp only [List.length_append, List.length_cons, List.length_nil]; omega]
        rfl
      · have hw30 : w.length = 30 := by omega
        cases w with
        | nil => simp at hw30
        | cons x xs' =>
            have hx : xs'.length = 29 := by
              simp only [List.length_cons] at hw30
              omega
            have h1 : updateWindow (x :: xs') m = xs' ++ [m] := by
              simp only [updateWindow]
              rw [if_pos]
              · rfl
              · simp only [List.length_append, List.length_cons, List.length_nil]
                omega
            rw [List.foldl_cons, h1, ih (xs' ++ [m])
              (by simp only [List.length_append, List.length_cons, List.length_nil]; omega)]
            rw [show (xs' ++ [m]).length + rest.length - 30 = rest.length by
                simp only [List.length_append, List.length_cons, List.length_nil, hx]; omega,
              show (x :: xs').length + (m :: rest).length - 30 = rest.length + 1 by
                simp only [List.length_cons, hx]; omega]
            simp [List.append_assoc]

/-- C7: the rolling window stays at length ≤ 30 across updates, and
appending 35 samples to the empty window retains exactly the last 30
appended, in arrival order (so its length is exactly 30). -/
theorem C7_window :
    (∀ (w : List ℚ) (m : ℚ), w.length ≤ 30 → (updateWindow w m).length ≤ 30) ∧
    (∀ xs : List ℚ, xs.length = 35 →
      List.foldl updateWindow [] xs = xs.drop 5 ∧
      (List.foldl updateWindow [] xs).length = 30) := by
  constructor
  · intro w m hw
    simp only [updateWindow]
    split_ifs with h <;> simp at h ⊢ <;> omega
  · intro xs hxs
    have h := foldl_updateWindow xs [] (by simp)
    simp only [List.nil_append, List.length_nil, Nat.zero_add] at h
    rw [hxs] at h
    have h5 : List.foldl updateWindow [] xs = xs.drop 5 := by simpa using h
    refine ⟨h5, ?_⟩
    rw [h5]
    simp [hxs]

/-- Witness for C7: one update of the empty window keeps length ≤ 30, and
pushing 35 concrete samples through the window keeps the last 30 in
arrival order. -/
theorem C7_window_witness :
    (([] : List ℚ).length ≤ 30 ∧ (updateWindow [] 0.3).length ≤ 30) ∧
    (List.replicate 35 (0.3 : ℚ)).length = 35 ∧
    (List.foldl updateWindow [] (List.replicate 35 (0.3 : ℚ)) =
        (List.replicate 35 (0.3 : ℚ)).drop 5 ∧
      (List.foldl updateWindow [] (List.replicate 35 (0.3 : ℚ))).length = 30) :=
  ⟨⟨by simp, C7_window.1 [] 0.3 (by simp)⟩, by simp,
    C7_window.2 (List.replicate 35 (0.3 : ℚ)) (by simp)⟩

/-! ### C8: momentum -/

/-- C8: momentum is 0 whenever the window holds fewer than 10 samples,
and otherwise equals the newest sample minus the sample 10 positions from
the end (here: the window decomposed as `front ++ b :: mids ++ [a]` with
8 samples between `b` and the newest sample `a`). -/
theorem C8_momentum :
    (∀ w : List ℚ, w.length < 10 → momentum w = 0) ∧
    (∀ (front mids : List ℚ) (b a : ℚ), mids.length = 8 →
      momentum (front ++ b :: (mids ++ [a])) = a - b) := by
  constructor
  · intro w hw
    rw [momentum, if_neg (by omega)]
  · intro front mids b a hm
    have hlen : (front ++ b :: (mids ++ [a])).length = front.length + 10 := by
      simp [hm]
    rw [momentum, if_pos (by omega), hlen]
    have h2 : (front ++ b :: (mids ++ [a])).getD (front.length + 10 - 10) 0 = b := by
      have e : front.length + 10 - 10 = front.length := by omega
      rw [e, List.getD_append_right front _ 0 front.length le_rfl, Nat.sub_self]
      rfl
    have h1 : (front ++ b :: (mids ++ [a])).getD (front.length + 10 - 1) 0 = a := by
      have e : front.length + 10 - 1 = front.length + 9 := by omega
      rw [e, List.getD_append_right front _ 0 (front.length + 9) (by omega),
        Nat.add_sub_cancel_left]
      show (b :: (mids ++ [a])).getD 9 0 = a
      rw [List.getD_cons_succ, List.getD_append_right mids _ 0 8 (by omega), hm,
        Nat.sub_self]
      rfl
    rw [h1, h2]

/-- Witness for C8: a 2-sample window has momentum 0, and a 10-sample
window `1 :: (eight zeros) ++ [3]` has momentum `3 - 1`. -/
theorem C8_momentum_witness :
    ([0.1, 0.2] : List ℚ).length < 10 ∧
    momentum [0.1, 0.2] = 0 ∧
    (List.replicate 8 (0 : ℚ)).length = 8 ∧
    momentum ([] ++ (1 : ℚ) :: (List.replicate 8 (0 : ℚ) ++ [3])) = 3 - 1 :=
  ⟨by simp, C8_momentum.1 [0.1, 0.2] (by simp), by simp,
    C8_momentum.2 [] (List.replicate 8 0) 1 3 (by simp)⟩

/-! ### C9: recommendation policy -/

/-- C9: the recommendation is a pure function of spread, momentum and
current position: an absent spread or a spread below 0.01 gives
`"HOLD (spread too small)"`; otherwise momentum above 0.01 gives
`"BUY small (momentum up)"`; otherwise momentum below −0.01 with a
positive position gives `"SELL small (momentum down)"`; otherwise
`"HOLD / watch"` — with both thresholds fixed at 0.01. -/
theorem C9_recommendation :
    (∀ mom posqty : ℚ, recommendation none mom posqty = "HOLD (spread too small)") ∧
    (∀ s mom posqty : ℚ, s < 0.01 →
      recommendation (some s) mom posqty = "HOLD (spread too small)") ∧
    (∀ s mom posqty : ℚ, 0.01 ≤ s → 0.01 < mom →
      recommendation (some s) mom posqty = "BUY small (momentum up)") ∧
    (∀ s mom posqty : ℚ, 0.01 ≤ s → ¬ 0.01 < mom → mom < -0.01 → 0 < posqty →
      recommendation (some s) mom posqty = "SELL small (momentum down)") ∧
    (∀ s mom posqty : ℚ, 0.01 ≤ s → ¬ 0.01 < mom → ¬ (mom < -0.01 ∧ 0 < posqty) →
      recommendation (some s) mom posqty = "HOLD / watch") := by
  refine ⟨fun _ _ => rfl, ?_, ?_, ?_, ?_⟩
  · intro s mom p h
    simp [recommendation, not_le.mpr h]
  · intro s mom p h1 h2
    simp [recommendation, h1, h2]
  · intro s mom p h1 h2 h3 h4
    simp [recommendation, h1, h2, h3, h4]
  · intro s mom p h1 h2 h3
    simp [recommendation, h1, h2, h3]

/-- Witness for C9, the spec's examples: spread 0.02 / momentum 0.02 buys;
spread 0.005 holds (too small), as does an absent spread; spread 0.02 /
momentum −0.02 / position 5 sells; spread 0.02 / momentum 0 watches. -/
theorem C9_recommendation_witness :
    recommendation none 0.02 0 = "HOLD (spread too small)" ∧
    ((0.005 : ℚ) < 0.01 ∧
      recommendation (some 0.005) 0.02 0 = "HOLD (spread too small)") ∧
    ((0.01 : ℚ) ≤ 0.02 ∧ (0.01 : ℚ) < 0.02 ∧
      recommendation (some 0.02) 0.02 0 = "BUY small (momentum up)") ∧
    ((-0.02 : ℚ) < -0.01 ∧ (0 : ℚ) < 5 ∧
      recommendation (some 0.02) (-0.02) 5 = "SELL small (momentum down)") ∧
    recommendation (some 0.02) 0 0 = "HOLD / watch" :=
  ⟨C9_recommendation.1 0.02 0,
    ⟨by norm_num, C9_recommendation.2.1 0.005 0.02 0 (by norm_num)⟩,
    ⟨by norm_num, by norm_num,
      C9_recommendation.2.2.1 0.02 0.02 0 (by norm_num) (by norm_num)⟩,
    ⟨by norm_num, by norm_num,
      C9_recommendation.2.2.2.1 0.02 (-0.02) 5 (by norm_num) (by norm_num)
        (by norm_num) (by norm_num)⟩,
    C9_recommendation.2.2.2.2 0.02 0 0 (by norm_num) (by norm_num)
      (by norm_num)⟩

/-! ### C3: ledger invariants -/

theorem fill_fees_mono (s : PaperState) (r : FillReq) (hr : GoodReq r) :
    s.fees_paid ≤ (paper_fill s r.token_id r.side r.px r.size r.fee_rate).2.fees_paid := by
  obtain ⟨t0, side, px, sz, fr⟩ := r
  unfold GoodReq at hr
  obtain ⟨hpx, hsz, hfr0, hfr1⟩ := hr
  have hfee : 0 ≤ px * sz * fr := mul_nonneg (mul_nonneg hpx hsz) hfr0
  by_cases hside : side = "BUY"
  · subst hside
    by_cases hcash : s.cash < px * sz + px * sz * fr
    · have hst : (paper_fill s t0 "BUY" px sz fr).2 = s := by
        simp [paper_fill, hcash]
      rw [hst]
    · have hst : (paper_fill s t0 "BUY" px sz fr).2.fees_paid =
          s.fees_paid + px * sz * fr := by
        simp [paper_fill, hcash]
      rw [hst]
      linarith
  · by_cases hpos : dget s.pos t0 0 < sz
    · have hst : (paper_fill s t0 side px sz fr).2 = s := by
        simp [paper_fill, hside, hpos]
      rw [hst]
    · have hst : (paper_fill s t0 side px sz fr).2.fees_paid =
          s.fees_paid + px * sz * fr := by
        simp [paper_fill, hside, hpos]
      rw [hst]
      linarith

theorem fill_preserves_inv (s : PaperState) (r : FillReq) (hr : GoodReq r)
    (hc : 0 ≤ s.cash) (hp : ∀ t, 0 ≤ dget s.pos t 0) :
    0 ≤ (paper_fill s r.token_id r.side r.px r.size r.fee_rate).2.cash ∧
    ∀ t, 0 ≤ dget (paper_fill s r.token_id r.side r.px r.size r.fee_rate).2.pos t 0 := by
  obtain ⟨t0, side, px, sz, fr⟩ := r
  unfold GoodReq at hr
  obtain ⟨hpx, hsz, hfr0, hfr1⟩ := hr
  by_cases hside : side = "BUY"
  · subst hside
    by_cases hcash : s.cash < px * sz + px * sz * fr
    · have hst : (paper_fill s t0 "BUY" px sz fr).2 = s := by
        simp [paper_fill, hcash]
      rw [hst]
      exact ⟨hc, hp⟩
    · have hc2 : (paper_fill s t0 "BUY" px sz fr).2.cash =
          s.cash - (px * sz + px * sz * fr) := by
        simp [paper_fill, hcash]
      have hp2 : (paper_fill s t0 "BUY" px sz fr).2.pos =
          dset s.pos t0 (dget s.pos t0 0 + sz) := by
        simp [paper_fill, hcash]
      constructor
      · rw [hc2]
        linarith [not_lt.mp hcash]
      · intro t
        rw [hp2]
        by_cases ht : t = t0
        · subst ht
          rw [dget_dset_self]
          have := hp t
          linarith
        · rw [dget_dset_of_ne _ _ _ _ _ ht]
          exact hp t
  · by_cases hpos : dget s.pos t0 0 < sz
    · have hst : (paper_fill s t0 side px sz fr).2 = s := by
        simp [paper_fill, hside, hpos]
      rw [hst]
      exact ⟨hc, hp⟩
    · have hc2 : (paper_fill s t0 side px sz fr).2.cash =
          s.cash + (px * sz - px * sz * fr) := by
        simp [paper_fill, hside, hpos]
      have hp2 : (paper_fill s t0 side px sz fr).2.pos =
          dset s.pos t0 (dget s.pos t0 0 - sz) := by
        simp [paper_fill, hside, hpos]
      constructor
      · rw [hc2]
        have hrest : 0 ≤ px * sz * (1 - fr) :=
          mul_nonneg (mul_nonneg hpx hsz) (by linarith)
        have hexp : px * sz * (1 - fr) = px * sz - px * sz * fr := by ring
        linarith
      · intro t
        rw [hp2]
        by_cases ht : t = t0
        · subst ht
          rw [dget_dset_self]
          linarith [not_lt.mp hpos]
        · rw [dget_dset_of_ne _ _ _ _ _ ht]
          exact hp t

theorem applyFills_inv : ∀ (l : List FillReq) (s : PaperState),
    (∀ r ∈ l, GoodReq r) → 0 ≤ s.cash → (∀ t, 0 ≤ dget s.pos t 0) →
    0 ≤ (applyFills s l).cash ∧ (∀ t, 0 ≤ dget (applyFills s l).pos t 0) ∧
      s.fees_paid ≤ (applyFills s l).fees_paid := by
  intro l
  induction l with
  | nil =>
      intro s _ hc hp
      exact ⟨hc, hp, le_rfl⟩
  | cons r rest ih =>
      intro s hg hc hp
      have hr := hg r (List.mem_cons_self r rest)
      have hstep := fill_preserves_inv s r hr hc hp
      have hfees := fill_fees_mono s r hr
      have hrec := ih (paper_fill s r.token_id r.side r.px r.size r.fee_rate).2
        (fun x hx => hg x (List.mem_cons_of_mem r hx)) hstep.1 hstep.2
      have happ : applyFills s (r :: rest) =
          applyFills (paper_fill s r.token_id r.side r.px r.size r.fee_rate).2 rest := rfl
      rw [happ]
      exact ⟨hrec.1, hrec.2.1, le_trans hfees hrec.2.2⟩

/-- C3 counterexample: the claim fails as stated. From the initial state,
the single-fill sequence `[BUY -10 @ 0.5, feeRate 0]` is a successful
fill (every parameter a float the code accepts) after which the position
is -10 < 0, refuting `positions[i] ≥ 0` after every successful fill. -/
theorem C3_counterexample :
    (paper_fill initState "X" "BUY" 0.5 (-10) 0).1.1 = true ∧
    applyFills initState [⟨"X", "BUY", 0.5, -10, 0⟩] =
      (paper_fill initState "X" "BUY" 0.5 (-10) 0).2 ∧
    dget (applyFills initState [⟨"X", "BUY", 0.5, -10, 0⟩]).pos "X" 0 < 0 := by
  refine ⟨?_, rfl, ?_⟩ <;>
    norm_num [paper_fill, applyFills, initState, dget, dlookup, dset]

/-- C3 (amended): for every sequence of fill requests with non-negative
price and size and fee rate in `[0, 1]` (the program always passes
`fee_rate = 0`, and sizes/prices are non-negative in its domain), after
every fill of the sequence — i.e. for every split `reqs = front ++ rest`,
after running `front` — cash is ≥ 0 and every position is ≥ 0, and
`fees_paid` never decreases from there to the end of the sequence. -/
theorem C3_invariants (reqs front rest : List FillReq)
    (hsplit : reqs = front ++ rest) (hgood : ∀ r ∈ reqs, GoodReq r) :
    0 ≤ (applyFills initState front).cash ∧
    (∀ t, 0 ≤ dget (applyFills initState front).pos t 0) ∧
    (applyFills initState front).fees_paid ≤ (applyFills initState reqs).fees_paid := by
  subst hsplit
  have hgf : ∀ r ∈ front, GoodReq r := fun r hr => hgood r (List.mem_append_left _ hr)
  have hinit : (0 : ℚ) ≤ initState.cash := by norm_num [initState]
  have hpos0 : ∀ t, 0 ≤ dget initState.pos t 0 := by
    intro t
    simp [initState, dget, dlookup]
  have h1 := applyFills_inv front initState hgf hinit hpos0
  refine ⟨h1.1, h1.2.1, ?_⟩
  have happ : applyFills initState (front ++ rest) =
      applyFills (applyFills initState front) rest := by
    simp [applyFills, List.foldl_append]
  rw [happ]
  exact (applyFills_inv rest (applyFills initState front)
    (fun r hr => hgood r (List.mem_append_right _ hr)) h1.1 h1.2.1).2.2

/-- Witness for the amended C3: the one-fill sequence `BUY 10 @ 0.5`
(fee rate 0) keeps cash ≥ 0, all positions ≥ 0 and fees non-decreasing. -/
theorem C3_invariants_witness :
    ([⟨"X", "BUY", 0.5, 10, 0⟩] : List FillReq) = [⟨"X", "BUY", 0.5, 10, 0⟩] ++ [] ∧
    (∀ r ∈ ([⟨"X", "BUY", 0.5, 10, 0⟩] : List FillReq), GoodReq r) ∧
    (0 ≤ (applyFills initState [⟨"X", "BUY", 0.5, 10, 0⟩]).cash ∧
      (∀ t, 0 ≤ dget (applyFills initState [⟨"X", "BUY", 0.5, 10, 0⟩]).pos t 0) ∧
      (applyFills initState [⟨"X", "BUY", 0.5, 10, 0⟩]).fees_paid ≤
        (applyFills initState [⟨"X", "BUY", 0.5, 10, 0⟩]).fees_paid) := by
  have hs : ([⟨"X", "BUY", 0.5, 10, 0⟩] : List FillReq) =
      [⟨"X", "BUY", 0.5, 10, 0⟩] ++ [] := by simp
  have hg : ∀ r ∈ ([⟨"X", "BUY", 0.5, 10, 0⟩] : List FillReq), GoodReq r := by
    intro r hr
    simp only [List.mem_singleton] at hr
    subst hr
    norm_num [GoodReq]
  exact ⟨hs, hg, C3_invariants _ _ [] hs hg⟩

/-! ### C10: any non-"BUY" side takes the SELL branch -/

/-- C10: for every side string other than exactly `"BUY"`, `paper_fill`
executes the SELL branch: the result coincides with a `"SELL"` fill, the
only possible failure is `InsufficientPosition`, and whenever the held
quantity is at least `size` the ledger is mutated as a sell. -/
theorem C10_nonbuy_sells (s : PaperState) (tid side : String) (px sz fr : ℚ)
    (h : side ≠ "BUY") :
    paper_fill s tid side px sz fr = paper_fill s tid "SELL" px sz fr ∧
    ((paper_fill s tid side px sz fr).1.1 = false →
      (paper_fill s tid side px sz fr).1.2 = FillMsg.notEnoughPosition) ∧
    (sz ≤ dget s.pos tid 0 →
      (paper_fill s tid side px sz fr).1 = (true, FillMsg.sellOk sz px) ∧
      dget (paper_fill s tid side px sz fr).2.pos tid 0 = dget s.pos tid 0 - sz) := by
  have hsell : ("SELL" : String) ≠ "BUY" := by decide
  by_cases hp : dget s.pos tid 0 < sz
  · simp [paper_fill, h, hsell, hp, not_le.mpr hp]
  · simp [paper_fill, h, hsell, hp, dget_dset_self]

/-- Witness for C10: a lowercase `"buy"` side from a state holding
2 shares is executed as a sell of 1 share. -/
theorem C10_nonbuy_sells_witness :
    ("buy" : String) ≠ "BUY" ∧
    (paper_fill { cash := 0, pos := [("X", 2)], avg := [], fees_paid := 0 }
        "X" "buy" 0.5 1 0 =
      paper_fill { cash := 0, pos := [("X", 2)], avg := [], fees_paid := 0 }
        "X" "SELL" 0.5 1 0 ∧
      ((paper_fill { cash := 0, pos := [("X", 2)], avg := [], fees_paid := 0 }
          "X" "buy" 0.5 1 0).1.1 = false →
        (paper_fill { cash := 0, pos := [("X", 2)], avg := [], fees_paid := 0 }
          "X" "buy" 0.5 1 0).1.2 = FillMsg.notEnoughPosition) ∧
      ((1 : ℚ) ≤ dget [("X", 2)] "X" 0 →
        (paper_fill { cash := 0, pos := [("X", 2)], avg := [], fees_paid := 0 }
            "X" "buy" 0.5 1 0).1 = (true, FillMsg.sellOk 1 0.5) ∧
        dget (paper_fill { cash := 0, pos := [("X", 2)], avg := [], fees_paid := 0 }
            "X" "buy" 0.5 1 0).2.pos "X" 0 = dget [("X", 2)] "X" 0 - 1)) :=
  ⟨by decide,
    C10_nonbuy_sells { cash := 0, pos := [("X", 2)], avg := [], fees_paid := 0 }
      "X" "buy" 0.5 1 0 (by decide)⟩

end Polybot
